import Mathlib

/-!
Verification of the EU VAT estimator core pipeline
(`app/parsers/amazon.py`, `app/vat_calculator.py`).

The pandas dataframe is modelled as an ordered association list of named
columns; a cell is either missing (`na`, modelling NaN/None), a string, or a
rational number (modelling float64 — float rounding is abstracted to exact
rational arithmetic, and division by zero follows the rational convention on
both sides of every statement).
-/

section VatEstimator

attribute [local semireducible] Rat.mul Rat.add Rat.sub Rat.inv Rat.ofScientific

/-- One dataframe cell: missing (NaN/None), a string, or a number. -/
inductive Cell where
  | na : Cell
  | str : String → Cell
  | num : ℚ → Cell
deriving DecidableEq, Repr

abbrev Col := List Cell

/-- A dataframe: ordered list of named columns. -/
abbrev DF := List (String × Col)

/-- Python `str.strip()` (whitespace trim), over the character list. -/
def pyStrip (s : String) : String :=
  String.mk (((s.toList.dropWhile Char.isWhitespace).reverse.dropWhile Char.isWhitespace).reverse)

/-- Python `str.upper()`. -/
def pyUpper (s : String) : String := String.mk (s.toList.map Char.toUpper)

/-- Python `str.lower()`. -/
def pyLower (s : String) : String := String.mk (s.toList.map Char.toLower)

/-- Left-pad a digit string with zeros to length `k`. -/
def padZeros (s : String) (k : ℕ) : String :=
  if s.length < k then String.mk (List.replicate (k - s.length) '0') ++ s else s

/-- Smallest exponent `k ≤ 29` with `q * 10^k` integral, if any. -/
def decExp (q : ℚ) : Option ℕ :=
  (List.range 30).find? (fun k => (q * (10 : ℚ) ^ k).den = 1)

/-- Decimal rendering of a non-negative rational, Python-`str` style
(`19 ↦ "19"`, `19/100 ↦ "0.19"`); non-decimal rationals (never produced by
the modelled pipeline) render as a placeholder. -/
def nonnegRatToPyStr (q : ℚ) : String :=
  if q.den = 1 then toString q.num
  else
    match decExp q with
    | some k =>
        let scaled : ℤ := (q * (10 : ℚ) ^ k).num
        let ip := scaled / (10 : ℤ) ^ k
        let fp := scaled % (10 : ℤ) ^ k
        toString ip ++ "." ++ padZeros (toString fp.toNat) k
    | none => "?"

/-- Python `str()` of a number. -/
def ratToPyStr (q : ℚ) : String :=
  if q < 0 then "-" ++ nonnegRatToPyStr (-q) else nonnegRatToPyStr q

/-- Python `str()` of a cell: NaN renders as `"nan"` (None as `"None"` behaves
identically in every modelled use, since both are replaced downstream). -/
def pyStr : Cell → String
  | .na => "nan"
  | .str s => s
  | .num q => ratToPyStr q

/-- Value of a digit list, most significant first. -/
def digitsVal (l : List Char) : ℕ :=
  l.foldl (fun a c => a * 10 + (c.toNat - 48)) 0

/-- Match the regex `[0-9]*\.?[0-9]+` at the head of `l`
(the capture group of `_coerce_rate_col`'s extraction pattern), returning the
matched numeric value. -/
def matchNumAt (l : List Char) : Option ℚ :=
  let d1 := l.takeWhile Char.isDigit
  let r1 := l.drop d1.length
  if d1.isEmpty then
    match r1 with
    | '.' :: r2 =>
        let d2 := r2.takeWhile Char.isDigit
        if d2.isEmpty then none
        else some ((digitsVal d2 : ℚ) / (10 : ℚ) ^ d2.length)
    | _ => none
  else
    match r1 with
    | '.' :: r2 =>
        let d2 := r2.takeWhile Char.isDigit
        if d2.isEmpty then some (digitsVal d1 : ℚ)
        else some ((digitsVal d1 : ℚ) + (digitsVal d2 : ℚ) / (10 : ℚ) ^ d2.length)
    | _ => some (digitsVal d1 : ℚ)

/-- Leftmost match of the unsigned-number pattern anywhere in the string
(`re.search` semantics of `Series.str.extract`). -/
def searchNum : List Char → Option ℚ
  | [] => none
  | c :: rest =>
      match matchNumAt (c :: rest) with
      | some q => some q
      | none => searchNum rest

/-- Models `amazon._coerce_rate_col`, per cell: stringify, strip, extract the first
unsigned numeric token, and rescale values in `[0, 1]` by 100. -/
def coerceRateCell (c : Cell) : Cell :=
  match searchNum (pyStrip (pyStr c)).toList with
  | none => .na
  | some q => if 0 ≤ q ∧ q ≤ 1 then .num (q * 100) else .num q

/-! ## Dataframe primitives -/

/-- Models `c in df.columns`. -/
def hasCol (df : DF) (c : String) : Bool := df.any (fun p => p.1 == c)

/-- Models `df[c]` (first column of that name; `[]` when absent). -/
def getCol (df : DF) (c : String) : Col :=
  (((df.find? (fun p => p.1 == c)).map Prod.snd)).getD []

/-- Models `df[c] = v`: replace an existing column in place, else append it. -/
def setCol (df : DF) (c : String) (v : Col) : DF :=
  if hasCol df c then df.map (fun p => if p.1 == c then (c, v) else p)
  else df ++ [(c, v)]

/-- Row count (length of the first column; frames used in theorems are
well-formed, all columns sharing one length). -/
def nrows (df : DF) : ℕ := ((df.head?.map (fun p => p.2.length))).getD 0

/-- Well-formed frame: all columns have length `n` and names are unique. -/
def WF (df : DF) (n : ℕ) : Prop :=
  (∀ p ∈ df, (p.2 : Col).length = n) ∧ (df.map Prod.fst).Nodup

/-! ## Cell arithmetic (float64 semantics with NaN propagation) -/

/-- Models `pd.to_numeric(·, errors="coerce")` on one cell: numbers pass through,
plain decimal strings (optional sign) parse, anything else nulls out.
Scientific notation is not modelled (no claim depends on it). -/
def parseUnsigned (l : List Char) : Option ℚ :=
  let d1 := l.takeWhile Char.isDigit
  let r1 := l.drop d1.length
  match r1 with
  | [] => if d1.isEmpty then none else some (digitsVal d1 : ℚ)
  | '.' :: r2 =>
      let d2 := r2.takeWhile Char.isDigit
      if ¬ (r2.drop d2.length).isEmpty then none
      else if d1.isEmpty ∧ d2.isEmpty then none
      else some ((digitsVal d1 : ℚ) + (digitsVal d2 : ℚ) / (10 : ℚ) ^ d2.length)
  | _ => none

def toNumericCell : Cell → Cell
  | .na => .na
  | .num q => .num q
  | .str s =>
      match (pyStrip s).toList with
      | '-' :: rest =>
          match parseUnsigned rest with
          | some q => .num (-q)
          | none => .na
      | '+' :: rest =>
          match parseUnsigned rest with
          | some q => .num q
          | none => .na
      | t =>
          match parseUnsigned t with
          | some q => .num q
          | none => .na

def cellAdd : Cell → Cell → Cell
  | .num a, .num b => .num (a + b)
  | _, _ => .na

def cellSub : Cell → Cell → Cell
  | .num a, .num b => .num (a - b)
  | _, _ => .na

/-- Models `series / q` (scalar divisor). -/
def cellDivQ : Cell → ℚ → Cell
  | .num a, q => .num (a / q)
  | _, _ => .na

/-- Models `series * other` elementwise. -/
def cellMul : Cell → Cell → Cell
  | .num a, .num b => .num (a * b)
  | _, _ => .na

/-- Models `series / other` elementwise. -/
def cellDiv : Cell → Cell → Cell
  | .num a, .num b => .num (a / b)
  | _, _ => .na

/-- Models `q + series` (scalar on the left). -/
def cellQAdd (q : ℚ) : Cell → Cell
  | .num a => .num (q + a)
  | _ => .na

/-! ## `vat_calculator.derive_net_gross` -/

/-- Models `for col in cols: if col in df.columns: df[col] = f(df[col])` — the
shape of both numeric-coercion loops in the source. -/
def coerceCols (cols : List String) (f : Cell → Cell) (df : DF) : DF :=
  cols.foldl
    (fun d col => if hasCol d col then setCol d col ((getCol d col).map f) else d)
    df

/-- The numeric-coercion loop at the top of `derive_net_gross`. -/
def coerceAmountCols (df : DF) : DF :=
  coerceCols ["net", "gross", "vat_amount", "rate"] toNumericCell df

/-- Step 1 of `derive_net_gross`:
`if "gross" not in df.columns and {"net","vat_amount"} ⊆ df.columns`. -/
def deriveStepGross (df : DF) : DF :=
  if ¬ hasCol df "gross" ∧ hasCol df "net" ∧ hasCol df "vat_amount" then
    setCol df "gross" (List.zipWith cellAdd (getCol df "net") (getCol df "vat_amount"))
  else df

/-- Step 2 of `derive_net_gross`: `net = gross - vat_amount`. -/
def deriveStepNet (df : DF) : DF :=
  if ¬ hasCol df "net" ∧ hasCol df "gross" ∧ hasCol df "vat_amount" then
    setCol df "net" (List.zipWith cellSub (getCol df "gross") (getCol df "vat_amount"))
  else df

/-- Step 3 of `derive_net_gross`: `vat_amount` from `rate`, preferring
`net` over `gross`. -/
def deriveStepVat (df : DF) : DF :=
  if ¬ hasCol df "vat_amount" ∧ hasCol df "rate" then
    if hasCol df "net" then
      setCol df "vat_amount"
        (List.zipWith (fun nc rc => cellMul nc (cellDivQ rc 100))
          (getCol df "net") (getCol df "rate"))
    else if hasCol df "gross" then
      setCol df "vat_amount"
        (List.zipWith (fun gc rc => cellSub gc (cellDiv gc (cellQAdd 1 (cellDivQ rc 100))))
          (getCol df "gross") (getCol df "rate"))
    else df
  else df

/-- Step 4 of `derive_net_gross`: the `net` re-check after rate-based
derivation. -/
def deriveStepNet2 (df : DF) : DF :=
  if ¬ hasCol df "net" ∧ hasCol df "gross" ∧ hasCol df "vat_amount" then
    setCol df "net" (List.zipWith cellSub (getCol df "gross") (getCol df "vat_amount"))
  else df

/-- Models `vat_calculator.derive_net_gross`: numeric coercion, then the four
derivation statements in the source's order (the second `net` check runs
after rate-based derivation). -/
def deriveNetGross (df : DF) : DF :=
  deriveStepNet2 (deriveStepVat (deriveStepNet (deriveStepGross (coerceAmountCols df))))

/-! ## `parsers/amazon.py` -/

def startsWithChars : List Char → List Char → Bool
  | [], _ => true
  | _ :: _, [] => false
  | p :: ps, c :: cs => p == c && startsWithChars ps cs

def containsChars (pat : List Char) : List Char → Bool
  | [] => pat.isEmpty
  | c :: rest => startsWithChars pat (c :: rest) || containsChars pat rest

/-- Case-sensitive substring containment (`Series.str.contains` with a plain
alternation pattern reduces to this per keyword). -/
def strContainsSub (s pat : String) : Bool := containsChars pat.toList s.toList

/-- The table `BASE_MAP`: safe renames from lower-cased raw names to canonical names. -/
def BASE_MAP : List (String × String) := [
  ("order-id", "order_id"),
  ("order id", "order_id"),
  ("amazon-order-id", "order_id"),
  ("order_id", "order_id"),
  ("transaction type", "transaction_type"),
  ("transaction_type", "transaction_type"),
  ("transaction-event-date", "date"),
  ("posting-date", "date"),
  ("invoice-date", "date"),
  ("purchase-date", "date"),
  ("shipment-date", "date"),
  ("tax_calculation_date", "date"),
  ("fulfillment-channel", "channel"),
  ("fulfilment-channel", "channel"),
  ("vat-collection-responsible", "vat_collector"),
  ("vat collection responsibility", "vat_collector"),
  ("tax_collection_responsibility", "vat_collector"),
  ("tax_collection_role", "vat_collector"),
  ("total_activity_value_amt_vat_excl", "net"),
  ("total_activity_value_amt_vat_incl", "gross"),
  ("total_activity_value_vat_amt", "vat_amount"),
  ("price_of_items_vat_amt", "vat_amount_items"),
  ("total_price_of_items_vat_amt", "vat_amount_items_total"),
  ("ship_charge_vat_amt", "vat_amount_shipping"),
  ("total_ship_charge_vat_amt", "vat_amount_shipping_total"),
  ("gift_wrap_vat_amt", "vat_amount_giftwrap"),
  ("total_gift_wrap_vat_amt", "vat_amount_giftwrap_total"),
  ("tax-rate", "rate"),
  ("tax rate", "rate"),
  ("vat rate", "rate"),
  ("vat-rate", "rate"),
  ("vat_rate", "rate"),
  ("price_of_items_vat_rate_percent", "rate"),
  ("currency", "currency"),
  ("sales_channel", "sales_channel")]

/-- The list `COUNTRY_PRIORITY`: raw jurisdiction columns, most authoritative first. -/
def COUNTRY_PRIORITY : List String := [
  "VAT_CALCULATION_IMPUTATION_COUNTRY",
  "ARRIVAL_COUNTRY",
  "SALE_ARRIVAL_COUNTRY",
  "SHIP_TO_COUNTRY",
  "MARKETPLACE_COUNTRY"]

/-- Models `lower_map[k]`: the last original column whose lower-casing is `k`
(the dict comprehension keeps the last writer). -/
def lowerLookup (cols : List String) (k : String) : Option String :=
  (cols.filter (fun c => pyLower c == k)).getLast?

/-- Step 1 of `normalize_columns`: the safe base renames. -/
def renameBase (df : DF) : DF :=
  let cols := df.map Prod.fst
  let mapping : List (String × String) :=
    BASE_MAP.filterMap (fun kv => (lowerLookup cols kv.1).map (fun orig => (orig, kv.2)))
  df.map (fun p =>
    match mapping.find? (fun m => m.1 == p.1) with
    | some m => (m.2, p.2)
    | none => p)

/-- Step 2's candidate collection: priority names present verbatim, else via a
case-insensitive match against the original columns. -/
def countryCandidatesOf (originalCols : List String) : List String :=
  COUNTRY_PRIORITY.foldl
    (fun acc raw =>
      if originalCols.contains raw then acc ++ [raw]
      else
        match lowerLookup originalCols (pyLower raw) with
        | some orig => acc ++ [orig]
        | none => acc)
    []

/-- The generator test inside `_first_nonempty_rowwise`:
`pd.notna(x) and str(x).strip() != ""`. -/
def notnaNonempty (c : Cell) : Bool :=
  !(c == Cell.na) && !(pyStrip (pyStr c) == "")

/-- Models `_first_nonempty_rowwise` at row `i` over candidate columns `cands`. -/
def firstNonemptyAt (df : DF) (cands : List String) (i : ℕ) : Cell :=
  ((cands.map (fun c => (getCol df c).getD i Cell.na)).find? notnaNonempty).getD Cell.na

/-- Python `s[-2:]` (trailing two characters; shorter strings unchanged). -/
def lastTwo (s : String) : String :=
  String.mk (s.toList.drop (s.toList.length - 2))

/-- The country normalization at the end of step 2: stringify, strip, upper,
treat literal `"NAN"`/`"NONE"`/`""` as null, default `"UNKNOWN"`. -/
def normCountryCell (c : Cell) : Cell :=
  let s := pyUpper (pyStrip (pyStr c))
  if s == "NAN" || s == "NONE" || s == "" then .str "UNKNOWN" else .str s

/-- Direct replacements for common collector variants (all map to the
platform). -/
def DIRECT_COLLECTOR_MAP : List (String × String) := [
  ("AMAZON EU S.A R.L.", "AMAZON"),
  ("AMAZON EU SARL", "AMAZON"),
  ("AMAZON SERVICES EUROPE SARL", "AMAZON"),
  ("MARKETPLACE", "AMAZON"),
  ("MARKETPLACE FACILITATOR", "AMAZON"),
  ("AMAZON - MARKETPLACE FACILITATOR", "AMAZON"),
  ("MPF", "AMAZON"),
  ("PLATFORM", "AMAZON")]

/-- The keyword alternation `(AMAZON|MARKETPLACE|FACILITATOR|MPF|PLATFORM)`. -/
def platformKw : List String :=
  ["AMAZON", "MARKETPLACE", "FACILITATOR", "MPF", "PLATFORM"]

/-- Step 3 of `normalize_columns` on one collector cell: upper+strip, direct
variant substitution, keyword containment to `"AMAZON"`, and
`"NAN"`/empty to `"SELLER"`. -/
def classifyCollector (c : Cell) : Cell :=
  let v0 := pyStrip (pyUpper (pyStr c))
  let v1 := ((DIRECT_COLLECTOR_MAP.find? (fun p => p.1 == v0)).map Prod.snd).getD v0
  let v2 := if platformKw.any (fun k => strContainsSub v1 k) then "AMAZON" else v1
  if v2 == "NAN" || v2 == "" then Cell.str "SELLER" else Cell.str v2

/-- Step 4's per-cell channel inference (`AFN ↦ FBA`, `MFN ↦ FBM`). -/
def channelOf (c : Cell) : Cell :=
  let u := pyUpper (pyStr c)
  .str (if u == "AFN" then "FBA" else if u == "MFN" then "FBM" else "UNKNOWN")

/-- The columns coerced numerically in step 7. -/
def NUMERIC_COLS : List String := [
  "net", "gross", "vat_amount",
  "vat_amount_items", "vat_amount_items_total",
  "vat_amount_shipping", "vat_amount_shipping_total",
  "vat_amount_giftwrap", "vat_amount_giftwrap_total"]

/-- Step 2 of `normalize_columns`: build a single `country` column by
priority, else fall back to the trailing two characters of `marketplace`. -/
def normStepCountry (originalCols : List String) (n : ℕ) (df : DF) : DF :=
  let cands := countryCandidatesOf originalCols
  if ¬ cands.isEmpty then
    setCol df "country" ((List.range n).map (fun i => firstNonemptyAt df cands i))
  else if hasCol df "marketplace" then
    setCol df "country"
      ((getCol df "marketplace").map (fun c => .str (pyUpper (lastTwo (pyStr c)))))
  else df

/-- The tail of step 2: normalize `country` (strip, upper, null literals to
`"UNKNOWN"`), defaulting the whole column to `"UNKNOWN"` when absent. -/
def normStepCountryNorm (n : ℕ) (df : DF) : DF :=
  if hasCol df "country" then
    setCol df "country" ((getCol df "country").map normCountryCell)
  else setCol df "country" (List.replicate n (Cell.str "UNKNOWN"))

/-- Step 3 of `normalize_columns`: standardize `vat_collector`. -/
def normStepCollector (n : ℕ) (df : DF) : DF :=
  if hasCol df "vat_collector" then
    setCol df "vat_collector" ((getCol df "vat_collector").map classifyCollector)
  else setCol df "vat_collector" (List.replicate n (Cell.str "SELLER"))

/-- Step 4 of `normalize_columns`: infer `channel` from `sales_channel`. -/
def normStepChannel (n : ℕ) (df : DF) : DF :=
  if hasCol df "sales_channel" ∧ ¬ hasCol df "channel" then
    setCol df "channel" ((getCol df "sales_channel").map channelOf)
  else if ¬ hasCol df "channel" then
    setCol df "channel" (List.replicate n (Cell.str "UNKNOWN"))
  else df

/-- Step 6 of `normalize_columns`: coerce `rate` to percentages. -/
def normStepRate (df : DF) : DF :=
  if hasCol df "rate" then setCol df "rate" ((getCol df "rate").map coerceRateCell)
  else df

/-- Step 8 of `normalize_columns`: the `order_id` fallback. -/
def normStepOrderId (originalCols : List String) (df : DF) : DF :=
  if ¬ hasCol df "order_id" then
    match ["TRANSACTION_EVENT_ID", "ACTIVITY_TRANSACTION_ID", "ORDER_ID"].find?
        (fun f => originalCols.contains f) with
    | some f => setCol df "order_id" (getCol df f)
    | none => df
  else df

/-- Models `amazon.normalize_columns`. Step 5 (date parsing via `pd.to_datetime`)
is modelled as the identity: calendar parsing is out of the embedded scope
and no claim depends on the `date` column's values. -/
def normalizeColumns (df0 : DF) : DF :=
  let originalCols := df0.map Prod.fst
  let dfA := renameBase df0
  let n := nrows dfA
  normStepOrderId originalCols
    (coerceCols NUMERIC_COLS toNumericCell
      (normStepRate
        (normStepChannel n
          (normStepCollector n
            (normStepCountryNorm n
              (normStepCountry originalCols n dfA))))))

/-! ## `vat_calculator.country_summary` -/

instance exceptDecEq {ε α : Type} [DecidableEq ε] [DecidableEq α] :
    DecidableEq (Except ε α) := fun a b =>
  match a, b with
  | .error e, .error f =>
      match decEq e f with
      | isTrue h => isTrue (h ▸ rfl)
      | isFalse h => isFalse (fun hh => h (by cases hh; rfl))
  | .error _, .ok _ => isFalse (fun hh => by cases hh)
  | .ok _, .error _ => isFalse (fun hh => by cases hh)
  | .ok x, .ok y =>
      match decEq x y with
      | isTrue h => isTrue (h ▸ rfl)
      | isFalse h => isFalse (fun hh => h (by cases hh; rfl))

/-- A raised Python exception: `KeyError` (the MissingField signal) or
`AttributeError`. Message texts follow the source, quote characters elided. -/
inductive PyErr where
  | keyError : String → PyErr
  | attributeError : String → PyErr
deriving DecidableEq, Repr

/-- One row of the jurisdiction summary (the `out[cols]` schema). -/
structure SummaryRow where
  country : String
  orders : ℕ
  net : ℚ
  vat_due : ℚ
  amazon_collected : ℚ
  vat_to_declare : ℚ
deriving DecidableEq, Repr

/-- Models `_dedupe_country`: collapse duplicate `country` columns by first
non-null per row (`bfill(axis=1)` then the first column), appending the
collapsed column at the end as the source does. -/
def dedupeCountry (df : DF) : DF :=
  let dup := df.filter (fun p => p.1 == "country")
  if dup.length ≤ 1 then df
  else
    let n := nrows df
    let merged := (List.range n).map (fun i =>
      ((dup.filterMap (fun p => p.2.get? i)).find? (fun c => !(c == Cell.na))).getD Cell.na)
    (df.filter (fun p => !(p.1 == "country"))) ++ [("country", merged)]

/-- Lexicographic codepoint order on strings (numpy/pandas sort order for the
string group keys; the built-in `String` order does not kernel-reduce, so the
comparison is spelled over character lists). -/
def strLtChars : List Char → List Char → Bool
  | [], [] => false
  | [], _ :: _ => true
  | _ :: _, [] => false
  | a :: as, b :: bs => if a < b then true else if b < a then false else strLtChars as bs

def strLeB (a b : String) : Bool := !(strLtChars b.toList a.toList)

/-- The propositional form of `strLeB`, for `List.insertionSort`. -/
def strLe (a b : String) : Prop := strLeB a b = true

instance strLeDec : DecidableRel strLe := fun a b =>
  inferInstanceAs (Decidable (strLeB a b = true))

/-- Group key of a cell under `groupby("country", dropna=True)`: null keys
are dropped. Numeric jurisdiction codes are outside the modelled scope
(every theorem hypothesizes string-valued `country` cells). -/
def cellKey : Cell → Option String
  | .str s => some s
  | _ => none

/-- Null-safe numeric value of a cell for summation (pandas `sum` skips NaN;
string-valued amount cells are outside the modelled scope — theorems
hypothesize numeric-or-null amount columns). -/
def cellNum0 : Cell → ℚ
  | .num q => q
  | _ => 0

/-- Models `Series.nunique()`: distinct non-null values. -/
def nunique (cells : List Cell) : ℕ :=
  ((cells.filter (fun c => !(c == Cell.na))).dedup).length

/-- The platform-keyword mask of `country_summary`:
`astype(str).str.upper().str.strip().str.contains(platform_kw, na=False)`. -/
def isPlatformCell (c : Cell) : Bool :=
  platformKw.any (fun k => strContainsSub (pyStrip (pyUpper (pyStr c))) k)

/-- Null-safe sum of the cells of `col` selected by the row indices `idx`. -/
def sumAt (idx : List ℕ) (col : Col) : ℚ :=
  ((idx.map (fun i => col.getD i Cell.na)).map cellNum0).sum

/-- Indices of the rows of group `k` under `groupby("country")`. -/
def grpIdx (countries : Col) (k : String) : List ℕ :=
  (List.range countries.length).filter (fun i => countries.getD i Cell.na == Cell.str k)

/-- The collector normalization applied on entry to `country_summary`:
`astype(str).str.upper().str.strip()`. -/
def collNorm (c : Cell) : Cell := .str (pyStrip (pyUpper (pyStr c)))

/-- Descending order on summary rows by `vat_to_declare`
(`sort_values(..., ascending=False)`). -/
def rowLe (a b : SummaryRow) : Prop := b.vat_to_declare ≤ a.vat_to_declare

instance rowLeDec : DecidableRel rowLe := fun a b =>
  inferInstanceAs (Decidable (b.vat_to_declare ≤ a.vat_to_declare))

/-- The `vat_collector → collector` fallback at the top of
`country_summary`. -/
def collectorFallback (df : DF) : DF :=
  if ¬ hasCol df "collector" ∧ hasCol df "vat_collector" then
    setCol df "collector" (getCol df "vat_collector")
  else df

/-- The success path of `country_summary`, on a frame whose `collector`
column has already been normalized: group by country (sorted keys, null
keys dropped), aggregate `orders`/`net`/`vat_due`, compute the
platform-collected frame over the masked rows, left-merge it with `fillna 0`,
derive `vat_to_declare`, and sort by `vat_to_declare` descending.

The final `sort_values("vat_to_declare", ascending=False)` uses numpy's
default quicksort, which is unstable once a partition exceeds the
insertion-sort threshold (about 16 elements), so the program fixes no tie
order among equal residuals. The model must pick one concrete outcome and
uses a stable insertion sort; the statements proved about the sorted output
are therefore only those every admissible quicksort outcome satisfies —
descending order, membership, and the per-row field values — plus fully
concrete instances small enough that numpy's introsort is itself an
insertion sort. -/
def summaryRows (df : DF) : List SummaryRow :=
  let countries := getCol df "country"
  let n := countries.length
  let keys := ((countries.filterMap cellKey).dedup).insertionSort strLe
  let ordersOf := fun (k : String) =>
    if hasCol df "order_id" then
      nunique ((grpIdx countries k).map (fun i => (getCol df "order_id").getD i Cell.na))
    else (grpIdx countries k).length
  let netCol := if hasCol df "net" then getCol df "net" else List.replicate n (Cell.num 0)
  let vat := getCol df "vat_amount"
  let coll := getCol df "collector"
  let platIdx := (List.range n).filter (fun i => isPlatformCell (coll.getD i Cell.na))
  let amzKeys :=
    (((platIdx.map (fun i => countries.getD i Cell.na)).filterMap cellKey).dedup).insertionSort strLe
  let amazon := amzKeys.map (fun k =>
    (k, sumAt (platIdx.filter (fun i => countries.getD i Cell.na == Cell.str k)) vat))
  let base := keys.map (fun k =>
    (k, sumAt (grpIdx countries k) netCol, sumAt (grpIdx countries k) vat))
  let out := base.map (fun b =>
    let amz := (((amazon.find? (fun p => p.1 == b.1)).map Prod.snd)).getD 0
    { country := b.1, orders := ordersOf b.1, net := b.2.1, vat_due := b.2.2,
      amazon_collected := amz, vat_to_declare := b.2.2 - amz : SummaryRow })
  out.insertionSort rowLe

/-- Models `vat_calculator.country_summary`.

`df.get("collector", "")` in the source returns the plain string `""` when
neither `collector` nor `vat_collector` exists, so the chained
`.astype(str)` raises `AttributeError` before the `vat_amount` check is
reached; the model reproduces that by raising in the same place. -/
def countrySummary (df0 : DF) : Except PyErr (List SummaryRow) :=
  let dfd := dedupeCountry df0
  if ¬ hasCol dfd "country" then
    .error (.keyError "Missing required column country. Please check normalization mapping.")
  else
    let df1 := collectorFallback dfd
    if ¬ hasCol df1 "collector" then
      .error (.attributeError "str object has no attribute astype")
    else
      let df := setCol df1 "collector" ((getCol df1 "collector").map collNorm)
      if ¬ hasCol df "vat_amount" then
        .error (.keyError
          "Missing required column vat_amount. Ensure normalization mapped correctly or derive_net_gross() worked.")
      else
        .ok (summaryRows df)

/-! ## Dataframe lemmas -/

theorem update_name_eq (p : String × Col) (c : String) (v : Col) :
    ((if p.1 == c then (c, v) else p)).1 = p.1 := by
  by_cases h : p.1 = c
  · subst h; simp
  · simp [h]

theorem hasCol_map_update (df : DF) (c c' : String) (v : Col) :
    hasCol (df.map (fun p => if p.1 == c then (c, v) else p)) c' = hasCol df c' := by
  induction df with
  | nil => rfl
  | cons p rest ih =>
      simp only [List.map_cons, hasCol, List.any_cons] at *
      rw [congrArg (· == c') (update_name_eq p c v)]
      exact congrArg (_ || ·) ih

theorem find?_map_update_self {df : DF} {c : String} {v : Col} (h : hasCol df c = true) :
    (df.map (fun p => if p.1 == c then (c, v) else p)).find? (fun p => p.1 == c)
      = some (c, v) := by
  induction df with
  | nil => simp [hasCol] at h
  | cons p rest ih =>
      rw [List.map_cons]
      by_cases hp : p.1 = c
      · have hupd : (if p.1 == c then (c, v) else p) = (c, v) := by simp [hp]
        rw [hupd, List.find?_cons_of_pos _ (by simp)]
      · have hupd : (if p.1 == c then (c, v) else p) = p := by simp [hp]
        rw [hupd, List.find?_cons_of_neg _ (by simp [hp])]
        exact ih (by simpa [hasCol, hp] using h)

theorem getCol_map_update_self {df : DF} {c : String} {v : Col} (h : hasCol df c = true) :
    getCol (df.map (fun p => if p.1 == c then (c, v) else p)) c = v := by
  unfold getCol
  rw [find?_map_update_self h]
  rfl

theorem find?_map_update_ne {df : DF} {c c' : String} (h : ¬ c = c') (v : Col) :
    (df.map (fun p => if p.1 == c then (c, v) else p)).find? (fun p => p.1 == c')
      = df.find? (fun p => p.1 == c') := by
  induction df with
  | nil => rfl
  | cons p rest ih =>
      rw [List.map_cons]
      by_cases hp : p.1 = c
      · have hupd : (if p.1 == c then (c, v) else p) = (c, v) := by simp [hp]
        rw [hupd, List.find?_cons_of_neg _ (by simp [h]),
          List.find?_cons_of_neg _ (by simp [hp, h]), ih]
      · have hupd : (if p.1 == c then (c, v) else p) = p := by simp [hp]
        rw [hupd]
        by_cases hp' : p.1 = c'
        · rw [List.find?_cons_of_pos _ (by simp [hp']),
            List.find?_cons_of_pos _ (by simp [hp'])]
        · rw [List.find?_cons_of_neg _ (by simp [hp']),
            List.find?_cons_of_neg _ (by simp [hp']), ih]

theorem getCol_map_update_ne {df : DF} {c c' : String} (h : ¬ c = c') (v : Col) :
    getCol (df.map (fun p => if p.1 == c then (c, v) else p)) c' = getCol df c' := by
  unfold getCol
  rw [find?_map_update_ne h]

theorem find?_name_none {df : DF} {c : String} (h : hasCol df c = false) :
    df.find? (fun p => p.1 == c) = none := by
  induction df with
  | nil => rfl
  | cons p rest ih =>
      simp only [hasCol, List.any_cons, Bool.or_eq_false_iff] at h
      simp [List.find?, h.1, ih (by simp [hasCol, h.2])]

theorem getCol_append_single_self {df : DF} {c : String} (h : hasCol df c = false) (v : Col) :
    getCol (df ++ [(c, v)]) c = v := by
  simp [getCol, List.find?_append, find?_name_none h, List.find?]

theorem getCol_append_single_ne {df : DF} {c c' : String} (h : ¬ c = c') (v : Col) :
    getCol (df ++ [(c, v)]) c' = getCol df c' := by
  have hcc : (c == c') = false := by simp [h]
  rcases hf : df.find? (fun p => p.1 == c') with - | p
  · simp [getCol, List.find?_append, hf, List.find?, hcc]
  · simp [getCol, List.find?_append, hf]

theorem getCol_setCol_self (df : DF) (c : String) (v : Col) :
    getCol (setCol df c v) c = v := by
  unfold setCol
  by_cases h : hasCol df c
  · rw [if_pos h]; exact getCol_map_update_self h
  · rw [if_neg h]
    exact getCol_append_single_self (Bool.not_eq_true _ ▸ eq_false_of_ne_true h) v

theorem getCol_setCol_ne (df : DF) {c c' : String} (h : ¬ c = c') (v : Col) :
    getCol (setCol df c v) c' = getCol df c' := by
  unfold setCol
  by_cases hh : hasCol df c
  · rw [if_pos hh]; exact getCol_map_update_ne h v
  · rw [if_neg hh]; exact getCol_append_single_ne h v

theorem hasCol_setCol (df : DF) (c : String) (v : Col) (c' : String) :
    hasCol (setCol df c v) c' = (hasCol df c' || c == c') := by
  unfold setCol
  by_cases h : hasCol df c
  · rw [if_pos h, hasCol_map_update]
    by_cases hcc : c = c'
    · subst hcc; simp [h]
    · simp [hcc]
  · rw [if_neg h]
    simp [hasCol, List.any_append, BEq.comm]

theorem coerceCols_cons (col : String) (rest : List String) (f : Cell → Cell) (df : DF) :
    coerceCols (col :: rest) f df
      = coerceCols rest f
          (if hasCol df col then setCol df col ((getCol df col).map f) else df) := rfl

theorem hasCol_coerceCols (cols : List String) (f : Cell → Cell) (df : DF) (c : String) :
    hasCol (coerceCols cols f df) c = hasCol df c := by
  induction cols generalizing df with
  | nil => rfl
  | cons col rest ih =>
      rw [coerceCols_cons, ih]
      by_cases h : hasCol df col
      · rw [if_pos h, hasCol_setCol]
        by_cases hcc : col = c
        · subst hcc; simp [h]
        · simp [hcc]
      · rw [if_neg h]

theorem getCol_coerceCols_not_mem (cols : List String) (f : Cell → Cell) (df : DF)
    {c : String} (h : c ∉ cols) :
    getCol (coerceCols cols f df) c = getCol df c := by
  induction cols generalizing df with
  | nil => rfl
  | cons col rest ih =>
      have hne : ¬ col = c := fun hh => h (hh ▸ List.mem_cons_self _ _)
      rw [coerceCols_cons, ih _ (fun hh => h (List.mem_cons_of_mem _ hh))]
      by_cases hcl : hasCol df col
      · rw [if_pos hcl, getCol_setCol_ne df hne]
      · rw [if_neg hcl]

theorem getCol_coerceCols_not_has (cols : List String) (f : Cell → Cell) (df : DF)
    {c : String} (h : hasCol df c = false) :
    getCol (coerceCols cols f df) c = getCol df c := by
  induction cols generalizing df with
  | nil => rfl
  | cons col rest ih =>
      rw [coerceCols_cons]
      by_cases hcl : hasCol df col
      · have hne : ¬ col = c := fun hh => by rw [hh] at hcl; exact absurd h (by simp [hcl])
        rw [if_pos hcl, ih _ (by rw [hasCol_setCol]; simp [h, hne]),
          getCol_setCol_ne df hne]
      · rw [if_neg hcl, ih _ h]

theorem getCol_coerceCols_mem (cols : List String) (f : Cell → Cell) (df : DF)
    {c : String} (hnd : cols.Nodup) (hc : c ∈ cols) (hhas : hasCol df c = true) :
    getCol (coerceCols cols f df) c = (getCol df c).map f := by
  induction cols generalizing df with
  | nil => cases hc
  | cons col rest ih =>
      rw [coerceCols_cons]
      rcases List.mem_cons.mp hc with hceq | hcr
      · subst hceq
        rw [if_pos hhas,
          getCol_coerceCols_not_mem rest f _ (List.nodup_cons.mp hnd).1,
          getCol_setCol_self]
      · have hne : ¬ col = c := fun hh =>
          (List.nodup_cons.mp hnd).1 (hh ▸ hcr)
        by_cases hcl : hasCol df col
        · rw [if_pos hcl,
            ih _ (List.nodup_cons.mp hnd).2 hcr (by rw [hasCol_setCol]; simp [hhas]),
            getCol_setCol_ne df hne]
        · rw [if_neg hcl]
          exact ih _ (List.nodup_cons.mp hnd).2 hcr hhas

/-! ## `derive_net_gross` lemmas -/

theorem hasCol_coerceAmountCols (df : DF) (c : String) :
    hasCol (coerceAmountCols df) c = hasCol df c :=
  hasCol_coerceCols _ _ df c

theorem getCol_coerceAmountCols_mem (df : DF) {c : String}
    (hc : c ∈ ["net", "gross", "vat_amount", "rate"]) (h : hasCol df c = true) :
    getCol (coerceAmountCols df) c = (getCol df c).map toNumericCell :=
  getCol_coerceCols_mem _ _ df (by decide) hc h

theorem getCol_coerceAmountCols_not_has (df : DF) {c : String} (h : hasCol df c = false) :
    getCol (coerceAmountCols df) c = getCol df c :=
  getCol_coerceCols_not_has _ _ df h

theorem deriveStepGross_fire {df : DF} (hg : hasCol df "gross" = false)
    (hn : hasCol df "net" = true) (hv : hasCol df "vat_amount" = true) :
    deriveStepGross df
      = setCol df "gross" (List.zipWith cellAdd (getCol df "net") (getCol df "vat_amount")) := by
  unfold deriveStepGross
  rw [if_pos ⟨by simp [hg], hn, hv⟩]

theorem deriveStepGross_skip {df : DF} (hg : hasCol df "gross" = true) :
    deriveStepGross df = df := by
  unfold deriveStepGross
  rw [if_neg (fun hc => hc.1 hg)]

theorem deriveStepGross_skip_novat {df : DF} (hv : hasCol df "vat_amount" = false) :
    deriveStepGross df = df := by
  unfold deriveStepGross
  rw [if_neg (fun hc => by rw [hv] at hc; exact absurd hc.2.2 (by simp))]

theorem deriveStepNet_fire {df : DF} (hn : hasCol df "net" = false)
    (hg : hasCol df "gross" = true) (hv : hasCol df "vat_amount" = true) :
    deriveStepNet df
      = setCol df "net" (List.zipWith cellSub (getCol df "gross") (getCol df "vat_amount")) := by
  unfold deriveStepNet
  rw [if_pos ⟨by simp [hn], hg, hv⟩]

theorem deriveStepNet_skip {df : DF} (hn : hasCol df "net" = true) :
    deriveStepNet df = df := by
  unfold deriveStepNet
  rw [if_neg (fun hc => hc.1 hn)]

theorem deriveStepNet_skip_novat {df : DF} (hv : hasCol df "vat_amount" = false) :
    deriveStepNet df = df := by
  unfold deriveStepNet
  rw [if_neg (fun hc => by rw [hv] at hc; exact absurd hc.2.2 (by simp))]

theorem deriveStepVat_fire_net {df : DF} (hv : hasCol df "vat_amount" = false)
    (hr : hasCol df "rate" = true) (hn : hasCol df "net" = true) :
    deriveStepVat df
      = setCol df "vat_amount"
          (List.zipWith (fun nc rc => cellMul nc (cellDivQ rc 100))
            (getCol df "net") (getCol df "rate")) := by
  unfold deriveStepVat
  rw [if_pos ⟨by simp [hv], hr⟩, if_pos hn]

theorem deriveStepVat_fire_gross {df : DF} (hv : hasCol df "vat_amount" = false)
    (hr : hasCol df "rate" = true) (hn : hasCol df "net" = false)
    (hg : hasCol df "gross" = true) :
    deriveStepVat df
      = setCol df "vat_amount"
          (List.zipWith (fun gc rc => cellSub gc (cellDiv gc (cellQAdd 1 (cellDivQ rc 100))))
            (getCol df "gross") (getCol df "rate")) := by
  unfold deriveStepVat
  rw [if_pos ⟨by simp [hv], hr⟩, if_neg (by simp [hn]), if_pos hg]

theorem deriveStepVat_skip {df : DF} (hv : hasCol df "vat_amount" = true) :
    deriveStepVat df = df := by
  unfold deriveStepVat
  rw [if_neg (fun hc => hc.1 hv)]

theorem deriveStepNet2_fire {df : DF} (hn : hasCol df "net" = false)
    (hg : hasCol df "gross" = true) (hv : hasCol df "vat_amount" = true) :
    deriveStepNet2 df
      = setCol df "net" (List.zipWith cellSub (getCol df "gross") (getCol df "vat_amount")) := by
  unfold deriveStepNet2
  rw [if_pos ⟨by simp [hn], hg, hv⟩]

theorem deriveStepNet2_skip {df : DF} (hn : hasCol df "net" = true) :
    deriveStepNet2 df = df := by
  unfold deriveStepNet2
  rw [if_neg (fun hc => hc.1 hn)]

theorem deriveStepGross_preserves {df : DF} {c : String} (h : hasCol df c = true) :
    getCol (deriveStepGross df) c = getCol df c ∧ hasCol (deriveStepGross df) c = true := by
  unfold deriveStepGross
  split
  · next hcond =>
      have hne : ¬ "gross" = c := fun he => by rw [← he] at h; exact hcond.1 h
      exact ⟨getCol_setCol_ne df hne _, by rw [hasCol_setCol]; simp [h]⟩
  · exact ⟨rfl, h⟩

theorem deriveStepNet_preserves {df : DF} {c : String} (h : hasCol df c = true) :
    getCol (deriveStepNet df) c = getCol df c ∧ hasCol (deriveStepNet df) c = true := by
  unfold deriveStepNet
  split
  · next hcond =>
      have hne : ¬ "net" = c := fun he => by rw [← he] at h; exact hcond.1 h
      exact ⟨getCol_setCol_ne df hne _, by rw [hasCol_setCol]; simp [h]⟩
  · exact ⟨rfl, h⟩

theorem deriveStepVat_preserves {df : DF} {c : String} (h : hasCol df c = true) :
    getCol (deriveStepVat df) c = getCol df c ∧ hasCol (deriveStepVat df) c = true := by
  unfold deriveStepVat
  split
  · next hcond =>
      have hne : ¬ "vat_amount" = c := fun he => by rw [← he] at h; exact hcond.1 h
      split
      · exact ⟨getCol_setCol_ne df hne _, by rw [hasCol_setCol]; simp [h]⟩
      · split
        · exact ⟨getCol_setCol_ne df hne _, by rw [hasCol_setCol]; simp [h]⟩
        · exact ⟨rfl, h⟩
  · exact ⟨rfl, h⟩

theorem deriveStepNet2_preserves {df : DF} {c : String} (h : hasCol df c = true) :
    getCol (deriveStepNet2 df) c = getCol df c ∧ hasCol (deriveStepNet2 df) c = true := by
  unfold deriveStepNet2
  split
  · next hcond =>
      have hne : ¬ "net" = c := fun he => by rw [← he] at h; exact hcond.1 h
      exact ⟨getCol_setCol_ne df hne _, by rw [hasCol_setCol]; simp [h]⟩
  · exact ⟨rfl, h⟩

/-- Columns of the four amount fields that are present in the input are only
numerically coerced by the deriver, never refilled — even in rows where
their value is null and derivable from the row's other fields. -/
theorem getCol_deriveNetGross_preserved (df : DF) {c : String}
    (hc : c ∈ ["net", "gross", "vat_amount", "rate"]) (h : hasCol df c = true) :
    getCol (deriveNetGross df) c = (getCol df c).map toNumericCell := by
  unfold deriveNetGross
  have h1 : hasCol (coerceAmountCols df) c = true := by rw [hasCol_coerceAmountCols]; exact h
  have p1 := deriveStepGross_preserves h1
  have p2 := deriveStepNet_preserves p1.2
  have p3 := deriveStepVat_preserves p2.2
  have p4 := deriveStepNet2_preserves p3.2
  rw [p4.1, p3.1, p2.1, p1.1, getCol_coerceAmountCols_mem df hc h]

/-- Derivation scenario: `gross` column absent, `net` and `vat_amount`
present — step 1 creates `gross = net + vat_amount` rowwise. -/
theorem deriveNetGross_gross_col (df : DF) (hg : hasCol df "gross" = false)
    (hn : hasCol df "net" = true) (hv : hasCol df "vat_amount" = true) :
    getCol (deriveNetGross df) "gross"
      = List.zipWith cellAdd ((getCol df "net").map toNumericCell)
          ((getCol df "vat_amount").map toNumericCell) := by
  unfold deriveNetGross
  have h1g : hasCol (coerceAmountCols df) "gross" = false := by
    rw [hasCol_coerceAmountCols]; exact hg
  have h1n : hasCol (coerceAmountCols df) "net" = true := by
    rw [hasCol_coerceAmountCols]; exact hn
  have h1v : hasCol (coerceAmountCols df) "vat_amount" = true := by
    rw [hasCol_coerceAmountCols]; exact hv
  rw [deriveStepGross_fire h1g h1n h1v,
    deriveStepNet_skip (by rw [hasCol_setCol]; simp [h1n]),
    deriveStepVat_skip (by rw [hasCol_setCol]; simp [h1v]),
    deriveStepNet2_skip (by rw [hasCol_setCol]; simp [h1n]),
    getCol_setCol_self,
    getCol_coerceAmountCols_mem df (by decide) hn,
    getCol_coerceAmountCols_mem df (by decide) hv]

/-- Derivation scenario: `net` column absent, `gross` and `vat_amount`
present — step 2 creates `net = gross - vat_amount` rowwise. -/
theorem deriveNetGross_net_col (df : DF) (hn : hasCol df "net" = false)
    (hg : hasCol df "gross" = true) (hv : hasCol df "vat_amount" = true) :
    getCol (deriveNetGross df) "net"
      = List.zipWith cellSub ((getCol df "gross").map toNumericCell)
          ((getCol df "vat_amount").map toNumericCell) := by
  unfold deriveNetGross
  have h1g : hasCol (coerceAmountCols df) "gross" = true := by
    rw [hasCol_coerceAmountCols]; exact hg
  have h1n : hasCol (coerceAmountCols df) "net" = false := by
    rw [hasCol_coerceAmountCols]; exact hn
  have h1v : hasCol (coerceAmountCols df) "vat_amount" = true := by
    rw [hasCol_coerceAmountCols]; exact hv
  rw [deriveStepGross_skip h1g,
    deriveStepNet_fire h1n h1g h1v,
    deriveStepVat_skip (by rw [hasCol_setCol]; simp [h1v]),
    deriveStepNet2_skip (by rw [hasCol_setCol]; simp),
    getCol_setCol_self,
    getCol_coerceAmountCols_mem df (by decide) hg,
    getCol_coerceAmountCols_mem df (by decide) hv]

/-- Derivation scenario: `vat_amount` absent with `net` and `rate`
present — step 3 creates `vat_amount = net * rate / 100` rowwise. -/
theorem deriveNetGross_vat_from_net (df : DF) (hv : hasCol df "vat_amount" = false)
    (hr : hasCol df "rate" = true) (hn : hasCol df "net" = true) :
    getCol (deriveNetGross df) "vat_amount"
      = List.zipWith (fun nc rc => cellMul nc (cellDivQ rc 100))
          ((getCol df "net").map toNumericCell)
          ((getCol df "rate").map toNumericCell) := by
  unfold deriveNetGross
  have h1v : hasCol (coerceAmountCols df) "vat_amount" = false := by
    rw [hasCol_coerceAmountCols]; exact hv
  have h1r : hasCol (coerceAmountCols df) "rate" = true := by
    rw [hasCol_coerceAmountCols]; exact hr
  have h1n : hasCol (coerceAmountCols df) "net" = true := by
    rw [hasCol_coerceAmountCols]; exact hn
  rw [deriveStepGross_skip_novat h1v,
    deriveStepNet_skip h1n,
    deriveStepVat_fire_net h1v h1r h1n,
    deriveStepNet2_skip (by rw [hasCol_setCol]; simp [h1n]),
    getCol_setCol_self,
    getCol_coerceAmountCols_mem df (by decide) hn,
    getCol_coerceAmountCols_mem df (by decide) hr]

/-- Derivation scenario: `vat_amount` and `net` absent with `gross` and
`rate` present — step 3 backs the tax out of the tax-inclusive total
(`vat_amount = gross - gross/(1 + rate/100)`) and step 4 then consumes the
just-derived `vat_amount` to fill `net = gross - vat_amount`. -/
theorem deriveNetGross_vat_from_gross (df : DF) (hv : hasCol df "vat_amount" = false)
    (hr : hasCol df "rate" = true) (hn : hasCol df "net" = false)
    (hg : hasCol df "gross" = true) :
    getCol (deriveNetGross df) "vat_amount"
        = List.zipWith (fun gc rc => cellSub gc (cellDiv gc (cellQAdd 1 (cellDivQ rc 100))))
            ((getCol df "gross").map toNumericCell)
            ((getCol df "rate").map toNumericCell) ∧
      getCol (deriveNetGross df) "net"
        = List.zipWith cellSub ((getCol df "gross").map toNumericCell)
            (List.zipWith (fun gc rc => cellSub gc (cellDiv gc (cellQAdd 1 (cellDivQ rc 100))))
              ((getCol df "gross").map toNumericCell)
              ((getCol df "rate").map toNumericCell)) := by
  unfold deriveNetGross
  have h1v : hasCol (coerceAmountCols df) "vat_amount" = false := by
    rw [hasCol_coerceAmountCols]; exact hv
  have h1r : hasCol (coerceAmountCols df) "rate" = true := by
    rw [hasCol_coerceAmountCols]; exact hr
  have h1n : hasCol (coerceAmountCols df) "net" = false := by
    rw [hasCol_coerceAmountCols]; exact hn
  have h1g : hasCol (coerceAmountCols df) "gross" = true := by
    rw [hasCol_coerceAmountCols]; exact hg
  rw [deriveStepGross_skip_novat h1v,
    deriveStepNet_skip_novat h1v,
    deriveStepVat_fire_gross h1v h1r h1n h1g,
    deriveStepNet2_fire (by rw [hasCol_setCol]; simp [h1n])
      (by rw [hasCol_setCol]; simp [h1g])
      (by rw [hasCol_setCol]; simp)]
  have hgr : getCol (coerceAmountCols df) "gross" = (getCol df "gross").map toNumericCell :=
    getCol_coerceAmountCols_mem df (by decide) hg
  have hra : getCol (coerceAmountCols df) "rate" = (getCol df "rate").map toNumericCell :=
    getCol_coerceAmountCols_mem df (by decide) hr
  constructor
  · rw [getCol_setCol_ne _ (show ¬ "net" = "vat_amount" by decide),
      getCol_setCol_self, hgr, hra]
  · rw [getCol_setCol_self,
      getCol_setCol_ne _ (show ¬ "vat_amount" = "gross" by decide),
      getCol_setCol_self, hgr, hra]

/-! ## Rate-coercion nonnegativity -/

theorem matchNumAt_nonneg {l : List Char} {q : ℚ} (h : matchNumAt l = some q) : 0 ≤ q := by
  simp only [matchNumAt] at h
  split at h
  · split at h
    · split at h
      · exact absurd h (by simp)
      · injection h with hq
        rw [← hq]
        exact div_nonneg (Nat.cast_nonneg _) (by positivity)
    · exact absurd h (by simp)
  · split at h
    · split at h
      · injection h with hq
        rw [← hq]
        exact Nat.cast_nonneg _
      · injection h with hq
        rw [← hq]
        exact add_nonneg (Nat.cast_nonneg _) (div_nonneg (Nat.cast_nonneg _) (by positivity))
    · injection h with hq
      rw [← hq]
      exact Nat.cast_nonneg _

theorem searchNum_nonneg : ∀ {l : List Char} {q : ℚ}, searchNum l = some q → 0 ≤ q := by
  intro l
  induction l with
  | nil => intro q h; cases h
  | cons c rest ih =>
      intro q h
      unfold searchNum at h
      split at h
      · next hq => injection h with h'; exact h' ▸ matchNumAt_nonneg hq
      · exact ih h

theorem coerceRateCell_nonneg (c : Cell) :
    coerceRateCell c = Cell.na ∨ ∃ q : ℚ, coerceRateCell c = Cell.num q ∧ 0 ≤ q := by
  unfold coerceRateCell
  split
  · exact Or.inl rfl
  · next q hq =>
      right
      by_cases h01 : 0 ≤ q ∧ q ≤ 1
      · exact ⟨q * 100, by rw [if_pos h01], mul_nonneg h01.1 (by norm_num)⟩
      · exact ⟨q, by rw [if_neg h01], searchNum_nonneg hq⟩

/-! ## Claim theorems -/

/-- C5: rate coercion maps the raw inputs `"19%"`, `19` and `0.19` each to
`19.0`, and maps `"0.19%"` to `19.0` as well (the rescale-fractions-in-[0,1]
heuristic, although the semantically correct value for `"0.19%"` is 0.19). -/
theorem rate_coercion_examples :
    coerceRateCell (.str "19%") = .num 19 ∧
    coerceRateCell (.num 19) = .num 19 ∧
    coerceRateCell (.num ((19 : ℚ)/100)) = .num 19 ∧
    coerceRateCell (.str "0.19%") = .num 19 ∧
    ((19 : ℚ)/100 ≠ 19) := by decide

/-- C10: the coerced rate is never negative — the extraction pattern
`[0-9]*\.?[0-9]+` matches only unsigned tokens, so every cell coerces to
null or a non-negative value; in particular `"-19"` coerces to `19.0`,
silently dropping the sign. -/
theorem rate_coercion_nonneg :
    (∀ c : Cell, coerceRateCell c = Cell.na ∨ ∃ q : ℚ, coerceRateCell c = Cell.num q ∧ 0 ≤ q) ∧
    coerceRateCell (.str "-19") = .num 19 :=
  ⟨coerceRateCell_nonneg, by decide⟩

/-- C1 counterexample: with `net`, `gross` and `vat_amount` all present as
columns, a row whose `gross` is null while `net = 10` and `vat_amount = 2`
(so `gross` is derivable as `12` from that row's other fields) is left
null by the Amount Deriver — derivation is not per-row. -/
theorem amountDeriver_rowwise_counterexample :
    getCol (deriveNetGross [("net", [.num 10]), ("gross", [.na]), ("vat_amount", [.num 2])])
        "gross" = [Cell.na] ∧
    cellAdd (toNumericCell (Cell.num 10)) (toNumericCell (Cell.num 2)) = Cell.num 12 ∧
    (Cell.na == Cell.num 12) = false := by decide

/-- C1 (amended): the Amount Deriver populates `net`, `gross`, `vat_amount`
at column granularity — a field's column is created and filled rowwise from
the other columns by the four precedence steps in the source's order, but
only when that column is entirely absent and the source columns are
present; columns that already exist are only numerically coerced, never
filled per-row. -/
theorem amountDeriver_column_granularity (df : DF) :
    (hasCol df "gross" = false → hasCol df "net" = true → hasCol df "vat_amount" = true →
      getCol (deriveNetGross df) "gross"
        = List.zipWith cellAdd ((getCol df "net").map toNumericCell)
            ((getCol df "vat_amount").map toNumericCell)) ∧
    (hasCol df "net" = false → hasCol df "gross" = true → hasCol df "vat_amount" = true →
      getCol (deriveNetGross df) "net"
        = List.zipWith cellSub ((getCol df "gross").map toNumericCell)
            ((getCol df "vat_amount").map toNumericCell)) ∧
    (hasCol df "vat_amount" = false → hasCol df "rate" = true → hasCol df "net" = true →
      getCol (deriveNetGross df) "vat_amount"
        = List.zipWith (fun nc rc => cellMul nc (cellDivQ rc 100))
            ((getCol df "net").map toNumericCell) ((getCol df "rate").map toNumericCell)) ∧
    (hasCol df "vat_amount" = false → hasCol df "rate" = true → hasCol df "net" = false →
      hasCol df "gross" = true →
      getCol (deriveNetGross df) "vat_amount"
          = List.zipWith (fun gc rc => cellSub gc (cellDiv gc (cellQAdd 1 (cellDivQ rc 100))))
              ((getCol df "gross").map toNumericCell) ((getCol df "rate").map toNumericCell) ∧
        getCol (deriveNetGross df) "net"
          = List.zipWith cellSub ((getCol df "gross").map toNumericCell)
              (getCol (deriveNetGross df) "vat_amount")) ∧
    (∀ c ∈ ["net", "gross", "vat_amount", "rate"], hasCol df c = true →
      getCol (deriveNetGross df) c = (getCol df c).map toNumericCell) := by
  refine ⟨deriveNetGross_gross_col df, deriveNetGross_net_col df,
    fun hv hr hn => deriveNetGross_vat_from_net df hv hr hn,
    fun hv hr hn hg => ?_,
    fun c hc h => getCol_deriveNetGross_preserved df hc h⟩
  obtain ⟨h1, h2⟩ := deriveNetGross_vat_from_gross df hv hr hn hg
  exact ⟨h1, by rw [h1]; exact h2⟩

/-- Witness for C1 (amended): with only `net` and `vat_amount` columns,
`gross` is created and filled. -/
theorem amountDeriver_column_granularity_witness :
    getCol (deriveNetGross [("net", [.num 10]), ("vat_amount", [.num 2])]) "gross"
      = [Cell.num 12] :=
  ((amountDeriver_column_granularity [("net", [.num 10]), ("vat_amount", [.num 2])]).1
    (by decide) (by decide) (by decide)).trans (by decide)

/-- C4: with only `net` and `rate` among the amount columns, the derived
`vat_amount` is rowwise `net * rate/100`; with only `gross` and `rate`, the
derived `vat_amount` is rowwise `gross - gross/(1 + rate/100)` and `net` is
subsequently filled as `gross -` the just-derived `vat_amount` — the second
`net` check runs after rate-based derivation, not before. -/
theorem rate_based_derivation (df : DF) :
    (hasCol df "net" = true → hasCol df "rate" = true → hasCol df "gross" = false →
      hasCol df "vat_amount" = false →
      getCol (deriveNetGross df) "vat_amount"
        = List.zipWith (fun nc rc => cellMul nc (cellDivQ rc 100))
            ((getCol df "net").map toNumericCell) ((getCol df "rate").map toNumericCell)) ∧
    (hasCol df "gross" = true → hasCol df "rate" = true → hasCol df "net" = false →
      hasCol df "vat_amount" = false →
      getCol (deriveNetGross df) "vat_amount"
          = List.zipWith (fun gc rc => cellSub gc (cellDiv gc (cellQAdd 1 (cellDivQ rc 100))))
              ((getCol df "gross").map toNumericCell) ((getCol df "rate").map toNumericCell) ∧
        getCol (deriveNetGross df) "net"
          = List.zipWith cellSub ((getCol df "gross").map toNumericCell)
              (getCol (deriveNetGross df) "vat_amount")) := by
  refine ⟨fun hn hr hg hv => deriveNetGross_vat_from_net df hv hr hn,
    fun hg hr hn hv => ?_⟩
  obtain ⟨h1, h2⟩ := deriveNetGross_vat_from_gross df hv hr hn hg
  exact ⟨h1, by rw [h1]; exact h2⟩

/-- Witness for C4: `gross = 119`, `rate = 19` yields `vat_amount = 19` and
then `net = 100`; `net = 100`, `rate = 19` yields `vat_amount = 19`. -/
theorem rate_based_derivation_witness :
    getCol (deriveNetGross [("gross", [.num 119]), ("rate", [.num 19])]) "vat_amount"
        = [Cell.num 19] ∧
    getCol (deriveNetGross [("gross", [.num 119]), ("rate", [.num 19])]) "net"
        = [Cell.num 100] ∧
    getCol (deriveNetGross [("net", [.num 100]), ("rate", [.num 19])]) "vat_amount"
        = [Cell.num 19] := by
  have h2 := (rate_based_derivation [("gross", [.num 119]), ("rate", [.num 19])]).2
    (by decide) (by decide) (by decide) (by decide)
  have h1 := (rate_based_derivation [("net", [.num 100]), ("rate", [.num 19])]).1
    (by decide) (by decide) (by decide) (by decide)
  exact ⟨h2.1.trans (by decide), h2.2.trans (by decide), h1.trans (by decide)⟩

/-- C2 (code bug): `df.get("collector", "")` returns the plain string `""`
when neither `collector` nor `vat_collector` exists as a column, so
`country_summary` raises `AttributeError` there — before the `vat_amount`
MissingField check is ever reached — although both structurally required
columns (`country`, `vat_amount`) are present; with a collector column
present, a dataset whose `net` column is absent aggregates without raising,
as the claim states, with `net` treated as a constant zero column. -/
theorem aggregator_missing_collector_crash :
    countrySummary [("country", [.str "DE"]), ("vat_amount", [.num 10])]
        = .error (.attributeError "str object has no attribute astype") ∧
    hasCol [("country", [.str "DE"]), ("vat_amount", [.num 10])] "country" = true ∧
    hasCol [("country", [.str "DE"]), ("vat_amount", [.num 10])] "vat_amount" = true ∧
    countrySummary [("country", [.str "DE"]), ("vat_amount", [.num 10]),
        ("collector", [.str "SELLER"])]
      = .ok [{ country := "DE", orders := 1, net := 0, vat_due := 10,
               amazon_collected := 0, vat_to_declare := 10 }] := by decide

/-! ## Collector classification lemmas -/

theorem collector_map_values_amazon : ∀ p ∈ DIRECT_COLLECTOR_MAP, p.2 = "AMAZON" := by decide

theorem collector_map_keys_platform :
    ∀ p ∈ DIRECT_COLLECTOR_MAP, platformKw.any (fun k => strContainsSub p.1 k) = true := by
  decide

theorem classifyCollector_platform {s : String}
    (h : platformKw.any (fun k => strContainsSub (pyStrip (pyUpper s)) k) = true) :
    classifyCollector (.str s) = .str "AMAZON" := by
  unfold classifyCollector
  dsimp only [pyStr]
  rcases hf : DIRECT_COLLECTOR_MAP.find? (fun p => p.1 == pyStrip (pyUpper s))
    with - | p
  · rw [hf]
    simp only [Option.map_none', Option.getD_none]
    rw [if_pos h]
    rw [if_neg (by decide)]
  · rw [hf]
    simp only [Option.map_some', Option.getD_some]
    rw [collector_map_values_amazon p (List.mem_of_find?_eq_some hf)]
    decide

theorem classifyCollector_empty {s : String} (h : pyStrip (pyUpper s) = "") :
    classifyCollector (.str s) = .str "SELLER" := by
  unfold classifyCollector
  dsimp only [pyStr]
  rw [h]
  decide

theorem classifyCollector_nan {s : String} (h : pyStrip (pyUpper s) = "NAN") :
    classifyCollector (.str s) = .str "SELLER" := by
  unfold classifyCollector
  dsimp only [pyStr]
  rw [h]
  decide

theorem classifyCollector_as_is {s : String}
    (hne : ¬ pyStrip (pyUpper s) = "") (hnan : ¬ pyStrip (pyUpper s) = "NAN")
    (hkw : platformKw.any (fun k => strContainsSub (pyStrip (pyUpper s)) k) = false) :
    classifyCollector (.str s) = .str (pyStrip (pyUpper s)) := by
  unfold classifyCollector
  dsimp only [pyStr]
  rw [List.find?_eq_none.mpr (fun p hp => by
    have hkwp := collector_map_keys_platform p hp
    intro hb
    have hp1 : p.1 = pyStrip (pyUpper s) := by simpa using hb
    rw [hp1] at hkwp
    rw [hkwp] at hkw
    cases hkw)]
  simp only [Option.map_none', Option.getD_none]
  rw [if_neg (show ¬ (platformKw.any fun k => strContainsSub (pyStrip (pyUpper s)) k) = true by
    rw [hkw]; decide)]
  rw [if_neg (by
    simp only [Bool.or_eq_true, beq_iff_eq, not_or]
    exact ⟨hnan, hne⟩)]

/-- C7 counterexample: the literal string `"NaN"` is a non-empty, non-null
value that matches no platform keyword, yet it is not left as-is
(upper-cased `"NAN"`): it classifies as `"SELLER"`. -/
theorem collector_nan_counterexample :
    classifyCollector (.str "NaN") = .str "SELLER" ∧
    pyStrip (pyUpper "NaN") = "NAN" ∧
    ("NAN" == "") = false ∧
    platformKw.any (fun k => strContainsSub "NAN" k) = false ∧
    (Cell.str "SELLER" == Cell.str "NAN") = false := by decide

/-- C7 (amended): `"Marketplace Facilitator"`, `"AMAZON EU SARL"` and
`"MPF"` classify as `"AMAZON"`; any value containing a platform keyword
(after upper-casing and trimming) classifies as `"AMAZON"`; an empty or
null value classifies as `"SELLER"`; the literal string `"NAN"` (after
upper-casing and trimming) is also treated as null and classifies as
`"SELLER"`; every other non-empty value is left as-is (upper-cased and
trimmed). -/
theorem collector_classification_amended :
    classifyCollector (.str "Marketplace Facilitator") = .str "AMAZON" ∧
    classifyCollector (.str "AMAZON EU SARL") = .str "AMAZON" ∧
    classifyCollector (.str "MPF") = .str "AMAZON" ∧
    (∀ s : String, platformKw.any (fun k => strContainsSub (pyStrip (pyUpper s)) k) = true →
      classifyCollector (.str s) = .str "AMAZON") ∧
    classifyCollector Cell.na = .str "SELLER" ∧
    (∀ s : String, pyStrip (pyUpper s) = "" → classifyCollector (.str s) = .str "SELLER") ∧
    (∀ s : String, pyStrip (pyUpper s) = "NAN" → classifyCollector (.str s) = .str "SELLER") ∧
    (∀ s : String, ¬ pyStrip (pyUpper s) = "" → ¬ pyStrip (pyUpper s) = "NAN" →
      platformKw.any (fun k => strContainsSub (pyStrip (pyUpper s)) k) = false →
      classifyCollector (.str s) = .str (pyStrip (pyUpper s))) :=
  ⟨by decide, by decide, by decide, fun _ h => classifyCollector_platform h, by decide,
   fun _ h => classifyCollector_empty h, fun _ h => classifyCollector_nan h,
   fun _ h1 h2 h3 => classifyCollector_as_is h1 h2 h3⟩

/-- Witness for C7 (amended): a non-platform collector is kept, upper-cased
and trimmed. -/
theorem collector_classification_amended_witness :
    classifyCollector (.str " eBay Ltd ") = .str "EBAY LTD" :=
  (collector_classification_amended.2.2.2.2.2.2.2 " eBay Ltd "
    (by decide) (by decide) (by decide)).trans (by decide)

/-! ## `normalize_columns` lemmas -/

theorem getCol_normStepCollector_ne (n : ℕ) (df : DF) {c : String}
    (h : ¬ "vat_collector" = c) :
    getCol (normStepCollector n df) c = getCol df c := by
  unfold normStepCollector
  split
  · exact getCol_setCol_ne df h _
  · exact getCol_setCol_ne df h _

theorem hasCol_normStepCollector_ne (n : ℕ) (df : DF) {c : String}
    (h : ¬ "vat_collector" = c) :
    hasCol (normStepCollector n df) c = hasCol df c := by
  unfold normStepCollector
  split <;> rw [hasCol_setCol] <;> simp [h]

theorem getCol_normStepChannel_ne (n : ℕ) (df : DF) {c : String} (h : ¬ "channel" = c) :
    getCol (normStepChannel n df) c = getCol df c := by
  unfold normStepChannel
  split
  · exact getCol_setCol_ne df h _
  · split
    · exact getCol_setCol_ne df h _
    · rfl

theorem hasCol_normStepChannel_ne (n : ℕ) (df : DF) {c : String} (h : ¬ "channel" = c) :
    hasCol (normStepChannel n df) c = hasCol df c := by
  unfold normStepChannel
  split
  · rw [hasCol_setCol]; simp [h]
  · split
    · rw [hasCol_setCol]; simp [h]
    · rfl

theorem getCol_normStepRate_ne (df : DF) {c : String} (h : ¬ "rate" = c) :
    getCol (normStepRate df) c = getCol df c := by
  unfold normStepRate
  split
  · exact getCol_setCol_ne df h _
  · rfl

theorem hasCol_normStepRate_ne (df : DF) {c : String} (h : ¬ "rate" = c) :
    hasCol (normStepRate df) c = hasCol df c := by
  unfold normStepRate
  split
  · rw [hasCol_setCol]; simp [h]
  · rfl

theorem getCol_normStepOrderId_ne (oc : List String) (df : DF) {c : String}
    (h : ¬ "order_id" = c) :
    getCol (normStepOrderId oc df) c = getCol df c := by
  unfold normStepOrderId
  split
  · split
    · exact getCol_setCol_ne df h _
    · rfl
  · rfl

theorem hasCol_normStepOrderId_ne (oc : List String) (df : DF) {c : String}
    (h : ¬ "order_id" = c) :
    hasCol (normStepOrderId oc df) c = hasCol df c := by
  unfold normStepOrderId
  split
  · split
    · rw [hasCol_setCol]; simp [h]
    · rfl
  · rfl

/-- The `country` column of the normalizer's output is decided by step 2
(the country steps): steps 3, 4, 6, 7 and 8 never touch it. -/
theorem getCol_normalize_country (df0 : DF) :
    getCol (normalizeColumns df0) "country"
      = getCol (normStepCountryNorm (nrows (renameBase df0))
          (normStepCountry (df0.map Prod.fst) (nrows (renameBase df0)) (renameBase df0)))
          "country" := by
  unfold normalizeColumns
  dsimp only
  rw [getCol_normStepOrderId_ne _ _ (by decide),
    getCol_coerceCols_not_mem _ _ _ (by decide),
    getCol_normStepRate_ne _ (by decide),
    getCol_normStepChannel_ne _ _ (by decide),
    getCol_normStepCollector_ne _ _ (by decide)]

theorem hasCol_normalize_country (df0 : DF) :
    hasCol (normalizeColumns df0) "country"
      = hasCol (normStepCountryNorm (nrows (renameBase df0))
          (normStepCountry (df0.map Prod.fst) (nrows (renameBase df0)) (renameBase df0)))
          "country" := by
  unfold normalizeColumns
  dsimp only
  rw [hasCol_normStepOrderId_ne _ _ (by decide),
    hasCol_coerceCols,
    hasCol_normStepRate_ne _ (by decide),
    hasCol_normStepChannel_ne _ _ (by decide),
    hasCol_normStepCollector_ne _ _ (by decide)]

/-- Fact: `normCountryCell` always yields a non-empty string (never a null). -/
theorem normCountryCell_shape (c : Cell) :
    ∃ s, normCountryCell c = .str s ∧ ¬ s = "" := by
  unfold normCountryCell
  dsimp only
  split
  · exact ⟨"UNKNOWN", rfl, by decide⟩
  · next h =>
      refine ⟨pyUpper (pyStrip (pyStr c)), rfl, fun he => h ?_⟩
      rw [he]
      decide

/-- The literal null strings map to `"UNKNOWN"`. -/
theorem normCountryCell_null_literals (c : Cell) :
    (pyUpper (pyStrip (pyStr c)) = "NAN" ∨ pyUpper (pyStrip (pyStr c)) = "NONE" ∨
      pyUpper (pyStrip (pyStr c)) = "") →
    normCountryCell c = .str "UNKNOWN" := by
  intro h
  unfold normCountryCell
  dsimp only
  rw [if_pos ?_]
  rcases h with h | h | h <;> rw [h] <;> decide

/-- After the country-normalization step, `country` exists and every cell is
a non-empty string. -/
theorem country_after_norm (n : ℕ) (df : DF) :
    hasCol (normStepCountryNorm n df) "country" = true ∧
    ∀ cell ∈ getCol (normStepCountryNorm n df) "country", ∃ s, cell = .str s ∧ ¬ s = "" := by
  unfold normStepCountryNorm
  split
  · refine ⟨by rw [hasCol_setCol]; simp, ?_⟩
    rw [getCol_setCol_self]
    intro cell hcell
    rcases List.mem_map.mp hcell with ⟨c, -, rfl⟩
    exact normCountryCell_shape c
  · refine ⟨by rw [hasCol_setCol]; simp, ?_⟩
    rw [getCol_setCol_self]
    intro cell hcell
    rw [List.eq_of_mem_replicate hcell]
    exact ⟨"UNKNOWN", rfl, by decide⟩

/-- C6: jurisdiction resolution takes, for every row, the first non-empty,
non-null value across the present candidate columns in priority order
(`firstNonemptyAt` over `countryCandidatesOf`, which walks
`COUNTRY_PRIORITY` in order and keeps the present columns), normalized at
the end; no later normalization step overwrites the result. -/
theorem jurisdiction_resolution (df0 : DF)
    (hcand : (countryCandidatesOf (df0.map Prod.fst)).isEmpty = false) :
    getCol (normalizeColumns df0) "country"
      = ((List.range (nrows (renameBase df0))).map
          (fun i => firstNonemptyAt (renameBase df0)
            (countryCandidatesOf (df0.map Prod.fst)) i)).map normCountryCell := by
  rw [getCol_normalize_country]
  unfold normStepCountry
  dsimp only
  rw [if_pos (by rw [hcand]; decide)]
  unfold normStepCountryNorm
  rw [if_pos (by rw [hasCol_setCol]; simp), getCol_setCol_self, getCol_setCol_self]

/-- Witness for C6: an authoritative jurisdiction column `"DE"` beats a
lower-priority ship-to column `"FR"`. -/
theorem jurisdiction_resolution_witness :
    getCol (normalizeColumns
      [("VAT_CALCULATION_IMPUTATION_COUNTRY", [.str "DE"]),
       ("SHIP_TO_COUNTRY", [.str "FR"])]) "country" = [Cell.str "DE"] :=
  (jurisdiction_resolution
    [("VAT_CALCULATION_IMPUTATION_COUNTRY", [.str "DE"]), ("SHIP_TO_COUNTRY", [.str "FR"])]
    (by decide)).trans (by decide)

/-- C8: with no jurisdiction candidate column, `country` is derived from the
trailing two characters of `marketplace` (then normalized); with neither,
the column is the constant `"UNKNOWN"`; the literal strings `"NAN"`,
`"NONE"` and the empty string are treated as null and become `"UNKNOWN"`;
and for every input, after normalization `country` exists and every cell is
a non-empty (non-null) string. -/
theorem country_fallback_and_presence :
    (∀ df0 : DF, (countryCandidatesOf (df0.map Prod.fst)).isEmpty = true →
      hasCol (renameBase df0) "marketplace" = true →
      getCol (normalizeColumns df0) "country"
        = ((getCol (renameBase df0) "marketplace").map
            (fun c => Cell.str (pyUpper (lastTwo (pyStr c))))).map normCountryCell) ∧
    (∀ df0 : DF, (countryCandidatesOf (df0.map Prod.fst)).isEmpty = true →
      hasCol (renameBase df0) "marketplace" = false →
      hasCol (renameBase df0) "country" = false →
      getCol (normalizeColumns df0) "country"
        = List.replicate (nrows (renameBase df0)) (Cell.str "UNKNOWN")) ∧
    (∀ c : Cell, (pyUpper (pyStrip (pyStr c)) = "NAN" ∨ pyUpper (pyStrip (pyStr c)) = "NONE" ∨
        pyUpper (pyStrip (pyStr c)) = "") → normCountryCell c = .str "UNKNOWN") ∧
    (∀ df0 : DF, hasCol (normalizeColumns df0) "country" = true ∧
      ∀ cell ∈ getCol (normalizeColumns df0) "country", ∃ s, cell = Cell.str s ∧ ¬ s = "") := by
  refine ⟨?_, ?_, normCountryCell_null_literals, ?_⟩
  · intro df0 hc hm
    rw [getCol_normalize_country]
    unfold normStepCountry
    dsimp only
    rw [if_neg (by rw [hc]; decide), if_pos hm]
    unfold normStepCountryNorm
    rw [if_pos (by rw [hasCol_setCol]; simp), getCol_setCol_self, getCol_setCol_self]
  · intro df0 hc hm hcty
    rw [getCol_normalize_country]
    unfold normStepCountry
    dsimp only
    rw [if_neg (by rw [hc]; decide), if_neg (by rw [hm]; decide)]
    unfold normStepCountryNorm
    rw [if_neg (by rw [hcty]; decide), getCol_setCol_self]
  · intro df0
    rw [getCol_normalize_country, hasCol_normalize_country]
    exact country_after_norm _ _

/-- Witness for C8: a marketplace domain ending in `.de` yields `"DE"`, and
a dataset with no jurisdiction source at all yields `"UNKNOWN"`. -/
theorem country_fallback_and_presence_witness :
    getCol (normalizeColumns [("marketplace", [.str "Amazon.de"])]) "country"
        = [Cell.str "DE"] ∧
    getCol (normalizeColumns [("order_id", [.str "x1"])]) "country"
        = [Cell.str "UNKNOWN"] :=
  ⟨(country_fallback_and_presence.1 [("marketplace", [.str "Amazon.de"])]
      (by decide) (by decide)).trans (by decide),
   (country_fallback_and_presence.2.1 [("order_id", [.str "x1"])]
      (by decide) (by decide) (by decide)).trans (by decide)⟩

/-! ## Ordering instances for the final sort -/

instance rowLeTotal : IsTotal SummaryRow rowLe := ⟨fun a b => by
  unfold rowLe
  exact (le_total b.vat_to_declare a.vat_to_declare).imp id id⟩

instance rowLeTrans : IsTrans SummaryRow rowLe :=
  ⟨fun _ _ _ hab hbc => le_trans hbc hab⟩

/-- C9 counterexample: two jurisdictions tie on `vat_to_declare = 10`; the
jurisdiction codes appear in the input in the order `FR`, `DE`, yet the
summary lists `DE` first (the `groupby` sorts keys before the final sort,
and on a 2-element array numpy's sort is an insertion sort) — so ties are
not broken by stable input order. -/
theorem summary_ordering_counterexample :
    (countrySummary
      [("country", [.str "FR", .str "DE"]),
       ("vat_amount", [.num 10, .num 10]),
       ("collector", [.str "SELLER", .str "SELLER"])]).map (List.map SummaryRow.country)
      = .ok ["DE", "FR"] ∧
    (getCol
      [("country", [.str "FR", .str "DE"]),
       ("vat_amount", [.num 10, .num 10]),
       ("collector", [.str "SELLER", .str "SELLER"])] "country")
      = [Cell.str "FR", Cell.str "DE"] ∧
    (["DE", "FR"] == ["FR", "DE"]) = false := by decide

/-- The success value of the Aggregator is sorted by `vat_to_declare`
descending. This is the whole ordering guarantee the program gives: the
unstable quicksort promises nothing about the relative order of tied rows. -/
theorem summaryRows_pairwise (df : DF) : (summaryRows df).Pairwise rowLe := by
  unfold summaryRows
  dsimp only
  exact List.sorted_insertionSort rowLe _

/-- C9 (amended): whenever aggregation succeeds, the Jurisdiction Summary is
ordered by `vat_to_declare` descending. Tie order is not stable input order
(see the counterexample: the `groupby` sorts jurisdiction keys before the
final sort), and the final `sort_values` uses numpy's unstable quicksort, so
no general tie-order property holds of the program and none is asserted. -/
theorem summary_ordering (df : DF) (out : List SummaryRow)
    (h : countrySummary df = .ok out) : out.Pairwise rowLe := by
  unfold countrySummary at h
  dsimp only at h
  split at h
  · cases h
  · split at h
    · cases h
    · split at h
      · cases h
      · injection h with h
        subst h
        exact summaryRows_pairwise _

/-- Witness for C9 (amended): a concrete tied output is descending by
`vat_to_declare`. -/
theorem summary_ordering_witness :
    ((countrySummary
      [("country", [.str "FR", .str "DE", .str "IT"]),
       ("vat_amount", [.num 10, .num 10, .num 30]),
       ("collector", [.str "SELLER", .str "SELLER", .str "SELLER"])]).toOption.getD
      []).Pairwise rowLe :=
  summary_ordering
    [("country", [.str "FR", .str "DE", .str "IT"]),
     ("vat_amount", [.num 10, .num 10, .num 30]),
     ("collector", [.str "SELLER", .str "SELLER", .str "SELLER"])] _ (by decide)

/-! ## Aggregation-sum lemmas -/

theorem count_country_le_one {df : DF} (h : (df.map Prod.fst).Nodup) :
    (df.filter (fun p => p.1 == "country")).length ≤ 1 := by
  induction df with
  | nil => simp
  | cons p rest ih =>
      rw [List.map_cons, List.nodup_cons] at h
      rw [List.filter_cons]
      by_cases hp : (p.1 == "country") = true
      · rw [if_pos hp]
        have hnil : rest.filter (fun q => q.1 == "country") = [] := by
          rw [List.filter_eq_nil_iff]
          intro q hq hqc
          refine h.1 ?_
          have hq1 : q.1 = "country" := by simpa using hqc
          have hp1 : p.1 = "country" := by simpa using hp
          rw [hp1, ← hq1]
          exact List.mem_map_of_mem _ hq
        rw [hnil]
        exact le_refl 1
      · rw [if_neg hp]
        exact ih h.2

theorem dedupeCountry_eq_self {df : DF} (h : (df.map Prod.fst).Nodup) :
    dedupeCountry df = df := by
  unfold dedupeCountry
  rw [if_pos (count_country_le_one h)]

theorem collectorFallback_of_has {df : DF} (h : hasCol df "collector" = true) :
    collectorFallback df = df := by
  unfold collectorFallback
  rw [if_neg (fun hc => hc.1 h)]

/-- Under the claim's preconditions, `country_summary` succeeds with the
summary computed on the collector-normalized frame. -/
theorem countrySummary_ok_of {df : DF} (hnd : (df.map Prod.fst).Nodup)
    (hc : hasCol df "country" = true) (hv : hasCol df "vat_amount" = true)
    (hcol : hasCol df "collector" = true) :
    countrySummary df
      = .ok (summaryRows (setCol df "collector" ((getCol df "collector").map collNorm))) := by
  unfold countrySummary
  dsimp only
  rw [dedupeCountry_eq_self hnd, collectorFallback_of_has hcol,
    if_neg (not_not_intro hc), if_neg (not_not_intro hcol),
    if_neg (not_not_intro (show hasCol
      (setCol df "collector" ((getCol df "collector").map collNorm)) "vat_amount" = true by
      rw [hasCol_setCol]; simp [hv]))]

theorem find?_keyed_map {ks : List String} {f : String → ℚ} {k : String}
    (hnd : ks.Nodup) (hk : k ∈ ks) :
    ((ks.map (fun x => (x, f x))).find? (fun p => p.1 == k)) = some (k, f k) := by
  induction ks with
  | nil => cases hk
  | cons a as ih =>
      rw [List.map_cons]
      by_cases hak : a = k
      · subst hak
        rw [List.find?_cons_of_pos _ (by simp)]
      · rw [List.find?_cons_of_neg _ (by simp [hak])]
        exact ih (List.nodup_cons.mp hnd).2
          ((List.mem_cons.mp hk).resolve_left (fun hh => hak hh.symm))

theorem find?_keyed_map_none {ks : List String} {f : String → ℚ} {k : String} (hk : k ∉ ks) :
    ((ks.map (fun x => (x, f x))).find? (fun p => p.1 == k)) = none := by
  rw [List.find?_eq_none]
  intro p hp
  rcases List.mem_map.mp hp with ⟨x, hx, rfl⟩
  simp only [beq_iff_eq]
  exact fun h => hk (h ▸ hx)

theorem filter_plat_group (countries coll : Col) (k : String) :
    (((List.range countries.length).filter
        (fun i => isPlatformCell (coll.getD i Cell.na))).filter
        (fun i => countries.getD i Cell.na == Cell.str k))
      = (grpIdx countries k).filter (fun i => isPlatformCell (coll.getD i Cell.na)) := by
  unfold grpIdx
  rw [List.filter_filter, List.filter_filter]
  exact List.filter_congr (fun i _ => Bool.and_comm _ _)

/-- The per-row aggregation facts of the Aggregator's success value:
`vat_due` is the null-safe group sum of `vat_amount`, `amazon_collected` is
the null-safe sum over the group's platform-keyword rows (`0` when none),
and `vat_to_declare` is their difference. -/
theorem summaryRows_spec (df : DF) :
    ∀ r ∈ summaryRows df,
      r.vat_due = sumAt (grpIdx (getCol df "country") r.country) (getCol df "vat_amount") ∧
      r.amazon_collected
        = sumAt ((grpIdx (getCol df "country") r.country).filter
            (fun i => isPlatformCell ((getCol df "collector").getD i Cell.na)))
            (getCol df "vat_amount") ∧
      r.vat_to_declare = r.vat_due - r.amazon_collected := by
  unfold summaryRows
  dsimp only
  intro r hr
  have hr' := (List.mem_insertionSort _).mp hr
  rw [List.map_map] at hr'
  rcases List.mem_map.mp hr' with ⟨k, hk, rfl⟩
  refine ⟨rfl, ?_, rfl⟩
  dsimp only [Function.comp]
  have hplat := filter_plat_group (getCol df "country") (getCol df "collector") k
  by_cases hkam : k ∈ ((((List.range (getCol df "country").length).filter
      (fun i => isPlatformCell ((getCol df "collector").getD i Cell.na))).map
        (fun i => (getCol df "country").getD i Cell.na)).filterMap cellKey).dedup.insertionSort
        strLe
  · rw [find?_keyed_map
      (((List.perm_insertionSort strLe _).nodup_iff).mpr (List.nodup_dedup _)) hkam]
    simp only [Option.map_some', Option.getD_some]
    rw [hplat]
  · rw [find?_keyed_map_none hkam]
    simp only [Option.map_none', Option.getD_none]
    have hempty : (grpIdx (getCol df "country") k).filter
        (fun i => isPlatformCell ((getCol df "collector").getD i Cell.na)) = [] := by
      rw [← hplat]
      rw [List.filter_eq_nil_iff]
      intro i hi hik
      refine hkam ((List.mem_insertionSort _).mpr (List.mem_dedup.mpr
        (List.mem_filterMap.mpr ⟨(getCol df "country").getD i Cell.na,
          List.mem_map_of_mem _ hi, ?_⟩)))
      have : (getCol df "country").getD i Cell.na = Cell.str k := by simpa using hik
      rw [this]
      rfl
    rw [hempty]
    rfl

/-- The Aggregator's success value has exactly one row per distinct non-null
jurisdiction value of the input. -/
theorem summaryRows_countries (df : DF) (s : String) :
    (Cell.str s ∈ getCol df "country") ↔ ∃ r ∈ summaryRows df, r.country = s := by
  unfold summaryRows
  dsimp only
  constructor
  · intro hs
    have hk : s ∈ (((getCol df "country").filterMap cellKey).dedup).insertionSort strLe :=
      (List.mem_insertionSort _).mpr (List.mem_dedup.mpr
        (List.mem_filterMap.mpr ⟨.str s, hs, rfl⟩))
    exact ⟨_, (List.mem_insertionSort _).mpr
      (by rw [List.map_map]; exact List.mem_map_of_mem _ hk), rfl⟩
  · rintro ⟨r, hr, rfl⟩
    have hr' := (List.mem_insertionSort _).mp hr
    rw [List.map_map] at hr'
    rcases List.mem_map.mp hr' with ⟨k, hk, rfl⟩
    have hk' := List.mem_dedup.mp ((List.mem_insertionSort _).mp hk)
    rcases List.mem_filterMap.mp hk' with ⟨c, hc, hck⟩
    cases c with
    | na => cases hck
    | num q => cases hck
    | str v =>
        have : v = k := by cases hck; rfl
        subst this
        exact hc

/-- C3: for every dataset containing `country`, `vat_amount` and a
`collector` column (with unique column names), aggregation succeeds and
each summary row has `vat_due` equal to the null-safe sum of `vat_amount`
over its jurisdiction's rows, `amazon_collected` equal to the null-safe sum
of `vat_amount` over the rows whose (normalized) collector matches the
platform-keyword test (`0.0` when no row matches, via the left-merge's
`fillna`), and `vat_to_declare = vat_due - amazon_collected`; there is one
summary row per distinct jurisdiction value; in particular two `DE` rows
with `vat_amount` 10 (AMAZON) and 20 (SELLER) give `vat_due = 30`,
`amazon_collected = 10`, `vat_to_declare = 20`. -/
theorem aggregation_sums :
    (∀ df : DF, (df.map Prod.fst).Nodup →
      hasCol df "country" = true → hasCol df "vat_amount" = true →
      hasCol df "collector" = true →
      ∃ out, countrySummary df = .ok out ∧
        (∀ r ∈ out,
          r.vat_due
              = sumAt (grpIdx (getCol df "country") r.country) (getCol df "vat_amount") ∧
          r.amazon_collected
              = sumAt ((grpIdx (getCol df "country") r.country).filter
                  (fun i => isPlatformCell
                    (((getCol df "collector").map collNorm).getD i Cell.na)))
                  (getCol df "vat_amount") ∧
          r.vat_to_declare = r.vat_due - r.amazon_collected) ∧
        (∀ s : String, Cell.str s ∈ getCol df "country" ↔ ∃ r ∈ out, r.country = s)) ∧
    countrySummary
      [("country", [.str "DE", .str "DE"]), ("vat_amount", [.num 10, .num 20]),
       ("collector", [.str "AMAZON", .str "SELLER"])]
      = .ok [{ country := "DE", orders := 2, net := 0, vat_due := 30,
               amazon_collected := 10, vat_to_declare := 20 }] := by
  refine ⟨?_, by decide⟩
  intro df hnd hc hv hcol
  refine ⟨_, countrySummary_ok_of hnd hc hv hcol, ?_, ?_⟩
  · intro r hr
    have h := summaryRows_spec
      (setCol df "collector" ((getCol df "collector").map collNorm)) r hr
    rw [getCol_setCol_ne df (show ¬ "collector" = "country" by decide),
      getCol_setCol_ne df (show ¬ "collector" = "vat_amount" by decide),
      getCol_setCol_self] at h
    exact h
  · intro s
    have h := summaryRows_countries
      (setCol df "collector" ((getCol df "collector").map collNorm)) s
    rw [getCol_setCol_ne df (show ¬ "collector" = "country" by decide)] at h
    exact h

/-- Witness for C3: the general statement instantiated on a two-jurisdiction
frame with a null `vat_amount` cell and no platform rows in one group. -/
theorem aggregation_sums_witness :
    ∃ out, countrySummary
        [("country", [.str "DE", .str "FR"]), ("vat_amount", [.num 5, .na]),
         ("collector", [.str "MPF", .str "SELLER"])] = .ok out ∧
      (∀ r ∈ out,
        r.vat_due
            = sumAt (grpIdx (getCol
                [("country", [.str "DE", .str "FR"]), ("vat_amount", [.num 5, .na]),
                 ("collector", [.str "MPF", .str "SELLER"])] "country") r.country)
                (getCol
                  [("country", [.str "DE", .str "FR"]), ("vat_amount", [.num 5, .na]),
                   ("collector", [.str "MPF", .str "SELLER"])] "vat_amount") ∧
        r.amazon_collected
            = sumAt ((grpIdx (getCol
                  [("country", [.str "DE", .str "FR"]), ("vat_amount", [.num 5, .na]),
                   ("collector", [.str "MPF", .str "SELLER"])] "country") r.country).filter
                (fun i => isPlatformCell
                  (((getCol
                      [("country", [.str "DE", .str "FR"]), ("vat_amount", [.num 5, .na]),
                       ("collector", [.str "MPF", .str "SELLER"])] "collector").map
                      collNorm).getD i Cell.na)))
                (getCol
                  [("country", [.str "DE", .str "FR"]), ("vat_amount", [.num 5, .na]),
                   ("collector", [.str "MPF", .str "SELLER"])] "vat_amount") ∧
        r.vat_to_declare = r.vat_due - r.amazon_collected) ∧
      (∀ s : String, Cell.str s ∈ getCol
          [("country", [.str "DE", .str "FR"]), ("vat_amount", [.num 5, .na]),
           ("collector", [.str "MPF", .str "SELLER"])] "country"
        ↔ ∃ r ∈ out, r.country = s) :=
  aggregation_sums.1
    [("country", [.str "DE", .str "FR"]), ("vat_amount", [.num 5, .na]),
     ("collector", [.str "MPF", .str "SELLER"])]
    (by decide) (by decide) (by decide) (by decide)

end VatEstimator
